import Mathlib

/-!
Verification of the face-recognition attendance system
(`src/data_handler.py`, `src/face_rec.py`, `main.py`, `app.py`).

The CSV persistence layer (`DataManager`) is embedded as pure functions
over an explicit file-content model; pandas `read_csv` is modelled as a
fallible parse (`Except PyError Table`) whose error cases mirror
`pd.errors.EmptyDataError` (zero-byte file), `pd.errors.ParserError`
(malformed file) and `KeyError` (missing column).  Pandas column type
inference followed by `astype(str)` is modelled at column level: a column
whose every cell parses as an integer literal is read back with the cells
canonicalised (`"007"` becomes `"7"`); otherwise the column keeps its
original strings.  The video loops of `face_rec.py` are embedded as
functions from an explicit environment (model-file presence, camera
availability, the per-frame detector/recognizer outcomes) to the list of
values the Python generators yield.
-/

namespace FaceApp

/-- Digits of a decimal literal: `some n` when the character list is a
nonempty run of ASCII digits, its value, else `none`. -/
def decDigits : List Char → Option Nat
  | [] => none
  | l =>
    if l.all Char.isDigit then
      some (l.foldl (fun a c => a * 10 + (c.toNat - 48)) 0)
    else
      none

/-- Model of Python `int(s)` / the pandas C parser on an integer cell:
an optional sign followed by a nonempty digit run. -/
def pyInt : String → Option Int
  | s =>
    match s.data with
    | '-' :: rest => (decDigits rest).map (fun n => -(n : Int))
    | '+' :: rest => (decDigits rest).map (fun n => (n : Int))
    | l => (decDigits l).map (fun n => (n : Int))

/-- A cell is a canonical integer string: it parses as an integer literal
and is the decimal print of its value, so it survives the pandas read /
`astype(str)` round trip unchanged (see `astypeStrColumn`).  Every id the
system itself writes is of this form (`str` of the recognizer's integer
label). -/
def isCanonInt (s : String) : Bool :=
  match pyInt s with
  | some n => toString n == s
  | none => false

/-- Model of reading a CSV column with pandas and applying `astype(str)`:
if every cell parses as an integer the column is inferred as int64 and
`astype(str)` prints the parsed values; otherwise the column is kept as
strings (object dtype). -/
def astypeStrColumn (cells : List String) : List String :=
  if cells.all (fun c => (pyInt c).isSome) then
    cells.map (fun c => toString ((pyInt c).getD 0))
  else
    cells

/-- Content of one CSV file on disk: the list of its lines (each a list of
cells, the first line being the header when present), or a file the pandas
parser rejects. -/
inductive FileContent where
  | lines (ls : List (List String))
  | malformed
deriving DecidableEq, Repr

/-- Python-level failures that can escape the data layer. -/
inductive PyError where
  | emptyData
  | parserError
  | keyError
deriving DecidableEq, Repr

/-- A parsed dataframe: header plus data rows. -/
structure Table where
  header : List String
  rows : List (List String)
deriving DecidableEq, Repr

/-- Model of `pd.read_csv`: a zero-line file raises `EmptyDataError`, a
malformed file raises `ParserError`, otherwise the first line is the
header. -/
def read_csv : FileContent → Except PyError Table
  | .lines [] => .error .emptyData
  | .lines (h :: t) => .ok ⟨h, t⟩
  | .malformed => .error .parserError

/-- Model of `df[name]` followed by `astype(str)`: `KeyError` when the
column is missing, else the column's cells after the pandas round trip. -/
def getColStr (t : Table) (name : String) : Except PyError (List String) :=
  match t.header.indexOf? name with
  | none => .error .keyError
  | some i => .ok (astypeStrColumn (t.rows.map (fun r => r.getD i "")))

/-- Append one row to a file (`open(path, "a")` + `writer.writerow`);
appending to an unparseable file leaves it unparseable. -/
def appendRow : FileContent → List String → FileContent
  | .lines ls, r => .lines (ls ++ [r])
  | .malformed, _ => .malformed

/-- `DataManager.add_student`: if the registry file exists, read it and
reject when `str(student_id)` occurs in the `Id` column after
`astype(str)`; otherwise append the `[id, name]` row (no header is written
by this function).  No exception handling, so read errors propagate. -/
def add_student (reg : Option FileContent) (student_id name : String) :
    Except PyError (Option FileContent × Bool × String) :=
  match reg with
  | some fc =>
    match read_csv fc with
    | .error e => .error e
    | .ok t =>
      match getColStr t "Id" with
      | .error e => .error e
      | .ok ids =>
        if student_id ∈ ids then
          .ok (some fc, false, "Student ID already exists.")
        else
          .ok (some (appendRow fc [student_id, name]), true, "Student added successfully.")
  | none =>
    .ok (some (.lines [[student_id, name]]), true, "Student added successfully.")

/-- `DataManager.get_student_name`: `"Unknown"` when the file is absent;
otherwise read the registry inside `try/except Exception`, returning the
`Name` cell of the first row whose `Id` matches, `"Unknown"` on no match
or on any read failure.  The returned value is the pandas-parsed cell, so
the `Name` column also goes through the read round trip. -/
def get_student_name (reg : Option FileContent) (student_id : String) : String :=
  match reg with
  | none => "Unknown"
  | some fc =>
    match read_csv fc with
    | .error _ => "Unknown"
    | .ok t =>
      match getColStr t "Id", getColStr t "Name" with
      | .ok ids, .ok names =>
        match (ids.zip names).find? (fun p => p.1 == student_id) with
        | some p => p.2
        | none => "Unknown"
      | _, _ => "Unknown"

/-- The duplicate check of `mark_attendance`: if today's ledger file
exists it is read with only `EmptyDataError` caught (`pass`); the id is a
duplicate when it occurs in the `Id` column after `astype(str)`.  Any
other read failure propagates. -/
def mark_dup_check (led : Option FileContent) (student_id : String) :
    Except PyError Bool :=
  match led with
  | none => .ok false
  | some fc =>
    match read_csv fc with
    | .error .emptyData => .ok false
    | .error e => .error e
    | .ok t =>
      match getColStr t "Id" with
      | .error e => .error e
      | .ok ids => .ok (decide (student_id ∈ ids))

/-- The append step of `mark_attendance`: the header row is written
exactly when the file did not exist. -/
def mark_write (led : Option FileContent) (row : List String) : Option FileContent :=
  match led with
  | none => some (.lines [["Id", "Name", "Date", "Time"], row])
  | some fc => some (appendRow fc row)

/-- `DataManager.mark_attendance` at a fixed current date and time, acting
on today's ledger file (`None` = file does not exist): run the duplicate
check, return the already-marked result on a duplicate, otherwise append
the attendance row. -/
def mark_attendance (led : Option FileContent) (student_id name date_str time_str : String) :
    Except PyError (Option FileContent × Bool × String) :=
  match mark_dup_check led student_id with
  | .error e => .error e
  | .ok true => .ok (led, false, "Attendance already marked.")
  | .ok false =>
    .ok (mark_write led [student_id, name, date_str, time_str], true,
      "Attendance marked for " ++ name ++ " at " ++ time_str)

/-- `DataManager.get_attendance_today`: an absent file yields the empty
dataframe with the attendance header, a zero-byte file likewise
(`EmptyDataError` caught); any other read outcome is returned as-is, so a
`ParserError` propagates. -/
def get_attendance_today (led : Option FileContent) : Except PyError Table :=
  match led with
  | none => .ok ⟨["Id", "Name", "Date", "Time"], []⟩
  | some fc =>
    match read_csv fc with
    | .error .emptyData => .ok ⟨["Id", "Name", "Date", "Time"], []⟩
    | .error e => .error e
    | .ok t => .ok t

/-! ### Ledger/registry helpers used in theorem statements -/

/-- Data rows of a ledger file (everything after the header line). -/
def ledgerRows : Option FileContent → List (List String)
  | some (.lines (_ :: rs)) => rs
  | _ => []

/-- Raw `Id` cells of a ledger's data rows. -/
def ledgerIds (led : Option FileContent) : List String :=
  (ledgerRows led).map (fun r => r.getD 0 "")

/-- Well-formed ledger file: absent, or a parseable file with the
attendance header and four-cell rows whose id cells are canonical integer
strings — the shape every file written by `mark_attendance` from
system-supplied ids has. -/
def wfLedger : Option FileContent → Bool
  | none => true
  | some (.lines (h :: rs)) =>
    h == ["Id", "Name", "Date", "Time"] &&
      rs.all (fun r => r.length == 4 && isCanonInt (r.getD 0 ""))
  | _ => false

/-! ### `face_rec.py` — training -/

/-- Model of Python `int` on a character list (see `pyInt`). -/
def pyIntChars (l : List Char) : Option Int :=
  match l with
  | '-' :: rest => (decDigits rest).map (fun n => -(n : Int))
  | '+' :: rest => (decDigits rest).map (fun n => (n : Int))
  | _ => (decDigits l).map (fun n => (n : Int))

/-- Python `str.split(".")`: split a character list at every dot. -/
def dotSplit : List Char → List (List Char)
  | [] => [[]]
  | c :: cs =>
    if c = '.' then [] :: dotSplit cs
    else
      match dotSplit cs with
      | p :: ps => (c :: p) :: ps
      | [] => [[c]]

/-- One file in the training-image directory: its name and whether
`Image.open` succeeds on it. -/
structure SampleFile where
  fname : List Char
  readable : Bool
deriving DecidableEq, Repr

/-- The `.jpg` suffix filter of `train_model`. -/
def jpgSuffix : List Char := ['.', 'j', 'p', 'g']

/-- Label a training image the way `train_model`'s loop does: skip it when
`Image.open` fails (exception caught), when the filename has fewer than
three dot-separated parts, or when `int(parts[1])` fails (exception
caught); otherwise the label is `int(parts[1])`. -/
def sampleLabel (f : SampleFile) : Option Int :=
  if f.readable = false then none
  else
    let parts := dotSplit f.fname
    if parts.length ≥ 3 then pyIntChars (parts.getD 1 []) else none

/-- Result of `train_model`: the returned status pair plus the
`(filename, id)` pairs fed to `recognizer.train` (empty when training
aborts before training). -/
structure TrainOut where
  ok : Bool
  msg : String
  trainedPairs : List (List Char × Int)
deriving DecidableEq, Repr

/-- `FaceRecognitionSystem.train_model`: list the `.jpg` files of the
training directory, abort with the no-samples message when there are
none; collect the labelled samples, abort with the no-valid-faces message
when none survive; otherwise train and save. -/
def train_model (dir : List SampleFile) : TrainOut :=
  let image_paths := dir.filter (fun f => jpgSuffix.isSuffixOf f.fname)
  if image_paths.isEmpty then
    ⟨false, "No training images found.", []⟩
  else
    let pairs := image_paths.filterMap (fun f => (sampleLabel f).map (fun i => (f.fname, i)))
    if pairs.isEmpty then
      ⟨false, "No valid faces found to train.", []⟩
    else
      ⟨true, "Model trained and saved successfully.", pairs⟩

/-- `train_model` together with its effect on the saved model file
(`trainer.yml`): `recognizer.save` runs only on the success path, so on
failure the previous model (if any) is untouched. -/
def train_model_fs (dir : List SampleFile)
    (model : Option (List (List Char × Int))) :
    TrainOut × Option (List (List Char × Int)) :=
  let out := train_model dir
  (out, if out.ok then some out.trainedPairs else model)

/-- Filename written by `capture_frames` / `capture_images`:
`f"{name}.{student_id}.{sample_num}.jpg"`. -/
def sampleFilename (name student_id : String) (sample_num : Nat) : List Char :=
  name.data ++ '.' :: student_id.data ++ '.' :: (Nat.repr sample_num).data ++ jpgSuffix

/-! ### `face_rec.py` — live recognition (`generate_frames`) -/

/-- Outcome of the external detector+recognizer on one detected face of
one frame: `recognizer.predict` returns an integer label and a
distance-style confidence (modelled as a rational). -/
structure FacePred where
  id_ : Int
  conf : ℚ
deriving DecidableEq

/-- Python `int()` on a rational: truncation toward zero. -/
def pyTrunc (q : ℚ) : Int := q.num / q.den

/-- The text drawn next to one face: `f"{name} ({int(conf)})"` when the
confidence gate `conf < 50` passes, `"Unknown"` otherwise. -/
def faceLabel (reg : Option FileContent) (p : FacePred) : String :=
  if p.conf < 50 then
    get_student_name reg (toString p.id_) ++ " (" ++ toString (pyTrunc p.conf) ++ ")"
  else
    "Unknown"

/-- The per-frame face loop of `generate_frames`: for each face, predict,
gate on `conf < 50`, and on acceptance resolve the display name and append
`{id, name}` to `current_frame_students`; returns the drawn labels in face
order and the recognized-students list. -/
def processFrame (reg : Option FileContent) (faces : List FacePred) :
    List String × List (Int × String) :=
  faces.foldl
    (fun acc p =>
      if p.conf < 50 then
        let name := get_student_name reg (toString p.id_)
        (acc.1 ++ [name ++ " (" ++ toString (pyTrunc p.conf) ++ ")"], acc.2 ++ [(p.id_, name)])
      else
        (acc.1 ++ ["Unknown"], acc.2))
    ([], [])

/-- One value yielded by the `generate_frames` generator: either an error
report (the Python code yields `(None, message)`) or an annotated frame
with its recognized-students list. -/
inductive Yield where
  | err (msg : String)
  | frame (labels : List String) (students : List (Int × String))
deriving DecidableEq

/-- Environment of one `generate_frames` run: whether `trainer.yml`
exists, whether `cv2.VideoCapture` opens, and the detector/recognizer
outcomes of the successive frames until `cam.read` fails. -/
structure CamEnv where
  modelTrained : Bool
  cameraOpens : Bool
  frames : List (List FacePred)

/-- Everything observable about one `generate_frames` run: the yielded
sequence and whether the camera was ever opened (`cv2.VideoCapture`
constructed). -/
structure GenOut where
  yields : List Yield
  cameraOpened : Bool
deriving DecidableEq

/-- `FaceRecognitionSystem.generate_frames`: yield the not-trained report
and stop if `trainer.yml` is absent (before any camera access); otherwise
open the camera, yield the camera report and stop if it cannot be opened;
otherwise yield one annotated frame per successful read. -/
def generate_frames (env : CamEnv) (reg : Option FileContent) : GenOut :=
  if env.modelTrained = false then
    ⟨[.err "Model not trained. Please train the model first."], false⟩
  else if env.cameraOpens = false then
    ⟨[.err "Could not open camera."], true⟩
  else
    ⟨env.frames.map (fun fr => Yield.frame (processFrame reg fr).1 (processFrame reg fr).2),
      true⟩

/-! ### Session roster and commit (`main.py`, `app.py`) -/

/-- Add one recognized id to the session roster: `attendance_session` is a
Python `set` in `main.py` (`app.py` guards the add with a membership
test), so adding a present id is a no-op.  The set is modelled as a
duplicate-free list in insertion order. -/
def rosterAdd (r : List String) (sid : String) : List String :=
  if sid ∈ r then r else r ++ [sid]

/-- Fold one frame's recognized students into the roster
(`attendance_session.add(str(s["id"]))` per student). -/
def frameAdd (r : List String) (students : List (Int × String)) : List String :=
  students.foldl (fun acc s => rosterAdd acc (toString s.1)) r

/-- The roster accumulated over a whole session's frames, starting
empty. -/
def sessionRoster (frames : List (List (Int × String))) : List String :=
  frames.foldl frameAdd []

/-- The commit loop of `save_attendance`: for each roster id, look up the
name and call `mark_attendance`, counting the successful (newly written)
marks; also returns the trace of ids passed to `mark_attendance`. -/
def saveLoop (reg : Option FileContent) (date_str time_str : String) :
    Option FileContent → List String → Except PyError (Option FileContent × Nat × List String)
  | led, [] => .ok (led, 0, [])
  | led, sid :: rest =>
    match mark_attendance led sid (get_student_name reg sid) date_str time_str with
    | .error e => .error e
    | .ok (led2, ok, _) =>
      match saveLoop reg date_str time_str led2 rest with
      | .error e => .error e
      | .ok (led3, c, calls) => .ok (led3, (if ok then 1 else 0) + c, sid :: calls)

/-- Observable outcome of `save_attendance`: today's ledger afterwards,
the JSON `success` flag and message, the trace of `mark_attendance`
calls, and the roster afterwards. -/
structure SaveOut where
  ledger : Option FileContent
  success : Bool
  message : String
  calls : List String
  roster : List String

/-- `POST /api/attendance/save` (`main.py`): an empty roster returns the
no-students response without touching any file; otherwise mark every
roster id, clear the roster, and report the count of newly written
records. -/
def save_attendance (roster : List String) (reg led : Option FileContent)
    (date_str time_str : String) : Except PyError SaveOut :=
  if roster.isEmpty then
    .ok ⟨led, false, "No students to save.", [], roster⟩
  else
    match saveLoop reg date_str time_str led roster with
    | .error e => .error e
    | .ok (led2, count, calls) =>
      .ok ⟨led2, true, "Saved " ++ toString count ++ " records.", calls, []⟩

/-- The attendance header row. -/
def attHeader : List String := ["Id", "Name", "Date", "Time"]

/-- The roster ids not already present in the ledger's id column: the ids
a commit pass newly writes. -/
def newIds (led : Option FileContent) (roster : List String) : List String :=
  roster.filter (fun sid => decide (sid ∉ ledgerIds led))

/-- Repeatedly calling `mark_attendance` with one id on one date, with the
names of the successive calls given by the list: returns the final ledger
and the success flag of each call in order. -/
def markSeq (sid d t : String) :
    Option FileContent → List String → Except PyError (Option FileContent × List Bool)
  | led, [] => .ok (led, [])
  | led, n :: ns =>
    match mark_attendance led sid n d t with
    | .error e => .error e
    | .ok (led2, ok, _) =>
      match markSeq sid d t led2 ns with
      | .error e => .error e
      | .ok (led3, oks) => .ok (led3, ok :: oks)

/-- The characters of a string before its first `'.'` (the first component
of Python `s.split(".")`). -/
def firstSeg : List Char → List Char
  | [] => []
  | c :: cs => if c = '.' then [] else c :: firstSeg cs

/-! ### Helper lemmas -/

lemma canon_pyInt {c : String} (h : isCanonInt c = true) :
    ∃ n : Int, pyInt c = some n ∧ toString n = c := by
  unfold isCanonInt at h
  cases hc : pyInt c with
  | none => rw [hc] at h; cases h
  | some n =>
    rw [hc] at h
    exact ⟨n, rfl, by simpa using h⟩

lemma astypeStr_of_canon {cells : List String}
    (h : ∀ c ∈ cells, isCanonInt c = true) : astypeStrColumn cells = cells := by
  have hall : cells.all (fun c => (pyInt c).isSome) = true := by
    simp only [List.all_eq_true]
    intro c hc
    obtain ⟨n, hn, _⟩ := canon_pyInt (h c hc)
    simp [hn]
  unfold astypeStrColumn
  rw [if_pos hall]
  induction cells with
  | nil => rfl
  | cons c cs ih =>
    obtain ⟨n, hn, hns⟩ := canon_pyInt (h c (by simp))
    have hcs : ∀ x ∈ cs, isCanonInt x = true := fun x hx => h x (List.mem_cons_of_mem _ hx)
    have hallcs : cs.all (fun c => (pyInt c).isSome) = true := by
      simp only [List.all_eq_true]
      intro x hx
      obtain ⟨m, hm, _⟩ := canon_pyInt (hcs x hx)
      simp [hm]
    simp [hn, hns, ih hcs hallcs]

lemma wfLedger_cases {led : Option FileContent} (h : wfLedger led = true) :
    led = none ∨ ∃ rs, led = some (.lines (attHeader :: rs)) ∧
      (∀ r ∈ rs, r.length = 4 ∧ isCanonInt (r.getD 0 "") = true) := by
  match led with
  | none => exact Or.inl rfl
  | some (.lines []) => simp [wfLedger] at h
  | some .malformed => simp [wfLedger] at h
  | some (.lines (hd :: rs)) =>
    refine Or.inr ⟨rs, ?_, ?_⟩
    · unfold wfLedger at h
      simp only [Bool.and_eq_true, beq_iff_eq] at h
      rw [h.1]; rfl
    · unfold wfLedger at h
      simp only [Bool.and_eq_true, beq_iff_eq, List.all_eq_true] at h
      intro r hr
      have := h.2 r hr
      simp only [Bool.and_eq_true, beq_iff_eq] at this
      exact this

lemma ledgerIds_mk (rs : List (List String)) :
    ledgerIds (some (.lines (attHeader :: rs))) = rs.map (fun r => r.getD 0 "") := rfl

lemma wfLedger_mk {rs : List (List String)}
    (h : ∀ r ∈ rs, r.length = 4 ∧ isCanonInt (r.getD 0 "") = true) :
    wfLedger (some (.lines (attHeader :: rs))) = true := by
  show (attHeader == ["Id", "Name", "Date", "Time"] &&
    rs.all (fun r => r.length == 4 && isCanonInt (r.getD 0 ""))) = true
  rw [Bool.and_eq_true]
  refine ⟨rfl, List.all_eq_true.mpr fun r hr => ?_⟩
  rw [Bool.and_eq_true]
  exact ⟨by rw [(h r hr).1]; rfl, (h r hr).2⟩

lemma dup_check_wf {led : Option FileContent} (hwf : wfLedger led = true) (sid : String) :
    mark_dup_check led sid = .ok (decide (sid ∈ ledgerIds led)) := by
  rcases wfLedger_cases hwf with h | ⟨rs, h, hrs⟩
  · subst h; rfl
  · subst h
    have hcanon : ∀ c ∈ rs.map (fun r => r.getD 0 ""), isCanonInt c = true := by
      intro c hc
      obtain ⟨r, hr, hrc⟩ := List.mem_map.mp hc
      rw [← hrc]; exact (hrs r hr).2
    have hstep : mark_dup_check (some (.lines (attHeader :: rs))) sid =
        .ok (decide (sid ∈ astypeStrColumn (rs.map (fun r => r.getD 0 "")))) := rfl
    rw [hstep, astypeStr_of_canon hcanon]
    rfl

lemma mark_attendance_fresh {led : Option FileContent} {sid : String}
    (name d t : String) (hwf : wfLedger led = true) (hnot : sid ∉ ledgerIds led) :
    mark_attendance led sid name d t =
      .ok (some (.lines (attHeader :: (ledgerRows led ++ [[sid, name, d, t]]))), true,
        "Attendance marked for " ++ name ++ " at " ++ t) := by
  have hdup := dup_check_wf hwf sid
  rw [mark_attendance, hdup]
  simp only [decide_eq_false hnot]
  rcases wfLedger_cases hwf with h | ⟨rs, h, _⟩
  · subst h; rfl
  · subst h; rfl

lemma mark_attendance_dup {led : Option FileContent} {sid : String}
    (name d t : String) (hwf : wfLedger led = true) (hin : sid ∈ ledgerIds led) :
    mark_attendance led sid name d t = .ok (led, false, "Attendance already marked.") := by
  have hdup := dup_check_wf hwf sid
  rw [mark_attendance, hdup]
  simp only [decide_eq_true hin]

lemma wfLedger_after_fresh {led : Option FileContent} (hwf : wfLedger led = true)
    {sid : String} (hsid : isCanonInt sid = true) (name d t : String) :
    wfLedger (some (.lines (attHeader :: (ledgerRows led ++ [[sid, name, d, t]])))) = true := by
  apply wfLedger_mk
  intro r hr
  rcases List.mem_append.mp hr with hr | hr
  · rcases wfLedger_cases hwf with h | ⟨rs, h, hrs⟩
    · subst h; simp [ledgerRows] at hr
    · subst h; exact hrs r hr
  · simp only [List.mem_singleton] at hr
    subst hr
    exact ⟨rfl, hsid⟩

lemma ledgerIds_after_fresh (led : Option FileContent) (sid name d t : String) :
    ledgerIds (some (.lines (attHeader :: (ledgerRows led ++ [[sid, name, d, t]])))) =
      ledgerIds led ++ [sid] := by
  show (ledgerRows led ++ [[sid, name, d, t]]).map (fun r => r.getD 0 "") = _
  rw [List.map_append]
  rfl

lemma markSeq_dup {sid d t : String} {led : Option FileContent}
    (hwf : wfLedger led = true) (hin : sid ∈ ledgerIds led) :
    ∀ ns : List String, markSeq sid d t led ns = .ok (led, ns.map (fun _ => false))
  | [] => rfl
  | n :: ns => by
    simp only [markSeq, mark_attendance_dup n d t hwf hin, markSeq_dup hwf hin ns,
      List.map_cons]

/-- Claim C3: for every sequence of `mark_attendance` calls with the same
id on the same date (any names), starting from a well-formed ledger not
yet containing the id, exactly one row is appended: the first call
succeeds and every later call that day returns the already-marked result
and leaves the ledger unchanged. -/
theorem mark_attendance_once_per_day (led : Option FileContent) (sid n : String)
    (ns : List String) (d t : String) (hwf : wfLedger led = true)
    (hsid : isCanonInt sid = true) (hnot : sid ∉ ledgerIds led) :
    markSeq sid d t led (n :: ns) =
      .ok (some (.lines (attHeader :: (ledgerRows led ++ [[sid, n, d, t]]))),
        true :: ns.map (fun _ => false)) := by
  have h1 := mark_attendance_fresh n d t hwf hnot
  have hwf2 := wfLedger_after_fresh hwf hsid n d t
  have hin2 : sid ∈ ledgerIds (some (.lines (attHeader :: (ledgerRows led ++ [[sid, n, d, t]])))) := by
    rw [ledgerIds_after_fresh]; simp
  simp only [markSeq, h1, markSeq_dup hwf2 hin2 ns]

/-- Witness for `mark_attendance_once_per_day` at a concrete input. -/
theorem mark_attendance_once_per_day_witness :
    wfLedger none = true ∧ isCanonInt "5" = true ∧ "5" ∉ ledgerIds (none : Option FileContent) ∧
    markSeq "5" "2026-10-12" "10:00:00" none ["Alice", "Alice"] =
      .ok (some (.lines [["Id", "Name", "Date", "Time"],
        ["5", "Alice", "2026-10-12", "10:00:00"]]), [true, false]) := by
  refine ⟨rfl, by decide, by decide, ?_⟩
  exact mark_attendance_once_per_day none "5" "Alice" ["Alice"] "2026-10-12" "10:00:00"
    rfl (by decide) (by decide)

lemma newIds_cons_mem {led : Option FileContent} {sid : String} (rest : List String)
    (hin : sid ∈ ledgerIds led) : newIds led (sid :: rest) = newIds led rest := by
  unfold newIds
  rw [List.filter_cons]
  simp [hin]

lemma newIds_cons_not_mem {led : Option FileContent} {sid : String} (rest : List String)
    (hin : sid ∉ ledgerIds led) : newIds led (sid :: rest) = sid :: newIds led rest := by
  unfold newIds
  rw [List.filter_cons]
  simp [hin]

lemma saveLoop_spec (reg : Option FileContent) (d t : String) :
    ∀ (roster : List String) (led : Option FileContent),
      roster.Nodup → (∀ sid ∈ roster, isCanonInt sid = true) → wfLedger led = true →
      ∃ led2, saveLoop reg d t led roster = .ok (led2, (newIds led roster).length, roster) ∧
        wfLedger led2 = true ∧ ledgerIds led2 = ledgerIds led ++ newIds led roster
  | [], led, _, _, hwf => ⟨led, rfl, hwf, by simp [newIds]⟩
  | sid :: rest, led, hnd, hcanon, hwf => by
    have hsid := hcanon sid (List.mem_cons_self sid rest)
    have hrest : ∀ x ∈ rest, isCanonInt x = true :=
      fun x hx => hcanon x (List.mem_cons_of_mem _ hx)
    have hndr : rest.Nodup := (List.nodup_cons.mp hnd).2
    have hsidrest : sid ∉ rest := (List.nodup_cons.mp hnd).1
    by_cases hin : sid ∈ ledgerIds led
    · obtain ⟨led2, hrun, hwf2, hids⟩ := saveLoop_spec reg d t rest led hndr hrest hwf
      refine ⟨led2, ?_, hwf2, ?_⟩
      · rw [newIds_cons_mem rest hin]
        simp only [saveLoop,
          mark_attendance_dup (get_student_name reg sid) d t hwf hin, hrun]
        simp
      · rw [newIds_cons_mem rest hin]
        exact hids
    · have hfresh := mark_attendance_fresh (get_student_name reg sid) d t hwf hin
      have hwf2 := wfLedger_after_fresh hwf hsid (get_student_name reg sid) d t
      have hids' := ledgerIds_after_fresh led sid (get_student_name reg sid) d t
      obtain ⟨led3, hrun, hwf3, hids3⟩ :=
        saveLoop_spec reg d t rest
          (some (.lines (attHeader :: (ledgerRows led ++ [[sid, get_student_name reg sid, d, t]]))))
          hndr hrest hwf2
      have hfilter : newIds
            (some (.lines (attHeader :: (ledgerRows led ++ [[sid, get_student_name reg sid, d, t]]))))
            rest = newIds led rest := by
        unfold newIds
        apply List.filter_congr
        intro x hx
        have hxne : x ≠ sid := fun h => hsidrest (h ▸ hx)
        rw [hids']
        apply decide_eq_decide.mpr
        simp [List.mem_append, hxne]
      refine ⟨led3, ?_, hwf3, ?_⟩
      · rw [newIds_cons_not_mem rest hin]
        simp only [saveLoop, hfresh, hrun, hfilter, List.length_cons]
        simp [Nat.add_comm]
      · rw [hids3, hfilter, hids', newIds_cons_not_mem rest hin, List.append_assoc]
        rfl

/-- Claim C4: committing a non-empty roster calls `mark_attendance`
exactly once per roster id (in roster order), reports a saved count equal
to the number of roster ids not already in today's ledger (already-marked
ids are skipped silently), appends exactly those ids to the ledger, and
leaves the roster empty. -/
theorem save_attendance_commit (roster : List String) (reg led : Option FileContent)
    (d t : String) (hne : roster ≠ []) (hnd : roster.Nodup)
    (hcanon : ∀ sid ∈ roster, isCanonInt sid = true) (hwf : wfLedger led = true) :
    ∃ led2, save_attendance roster reg led d t =
        .ok ⟨led2, true, "Saved " ++ toString (newIds led roster).length ++ " records.",
          roster, []⟩ ∧
      ledgerIds led2 = ledgerIds led ++ newIds led roster := by
  obtain ⟨led2, hrun, _, hids⟩ := saveLoop_spec reg d t roster led hnd hcanon hwf
  refine ⟨led2, ?_, hids⟩
  unfold save_attendance
  rw [if_neg (by simpa using hne), hrun]

/-- Witness for `save_attendance_commit` at a concrete input: one of the
two roster ids is already in today's ledger. -/
theorem save_attendance_commit_witness :
    (["7", "8"] : List String) ≠ [] ∧ (["7", "8"] : List String).Nodup ∧
    (∀ sid ∈ (["7", "8"] : List String), isCanonInt sid = true) ∧
    wfLedger (some (.lines [["Id", "Name", "Date", "Time"],
      ["7", "X", "2026-10-12", "09:00:00"]])) = true ∧
    ∃ led2 msg, save_attendance ["7", "8"] none
        (some (.lines [["Id", "Name", "Date", "Time"], ["7", "X", "2026-10-12", "09:00:00"]]))
        "2026-10-12" "10:00:00" = .ok ⟨led2, true, msg, ["7", "8"], []⟩ := by
  refine ⟨by decide, by decide, by decide, by decide, ?_⟩
  obtain ⟨led2, h, -⟩ := save_attendance_commit ["7", "8"] none
    (some (.lines [["Id", "Name", "Date", "Time"], ["7", "X", "2026-10-12", "09:00:00"]]))
    "2026-10-12" "10:00:00" (by decide) (by decide) (by decide) (by decide)
  exact ⟨led2, _, h⟩

/-- Claim C9: committing an empty roster writes nothing to any ledger,
raises no error, reports that no students were saved, and leaves the
(already empty) roster empty. -/
theorem save_attendance_empty_roster (reg led : Option FileContent) (d t : String) :
    save_attendance [] reg led d t = .ok ⟨led, false, "No students to save.", [], []⟩ := rfl

/-- Claim C5 (code bug): the duplicate check of `add_student` compares the
raw id string against the pandas-parsed ids, so a second registration of
the non-canonical id `"007"` is appended again and reported as a success,
leaving the same id twice in the registry (pandas reads the stored `007`
back as the integer `7`, and `"007" ≠ "7"`). -/
theorem add_student_duplicate_id_missed :
    add_student (some (.lines [["Id", "Name"]])) "007" "Alice" =
      .ok (some (.lines [["Id", "Name"], ["007", "Alice"]]), true,
        "Student added successfully.") ∧
    add_student (some (.lines [["Id", "Name"], ["007", "Alice"]])) "007" "Bob" =
      .ok (some (.lines [["Id", "Name"], ["007", "Alice"], ["007", "Bob"]]), true,
        "Student added successfully.") := by
  exact ⟨rfl, rfl⟩

/-- Claim C8 counterexample: the duplicate check inside `mark_attendance`
catches only `EmptyDataError`, so on a malformed (parser-rejected) ledger
file the operation propagates the exception instead of treating the file
as empty and completing. -/
theorem mark_attendance_malformed_raises :
    mark_attendance (some .malformed) "5" "Alice" "2026-10-12" "09:00:00" =
      .error .parserError := rfl

/-- Claim C8 as amended: `get_student_name` treats any unreadable or
malformed registry as empty (returns `"Unknown"`); the duplicate check of
`mark_attendance` and `get_attendance_today` treat only an empty
(zero-byte) ledger file as empty and complete normally, while a malformed
ledger file makes both propagate the parser error. -/
theorem storage_unreadable_handling :
    (∀ sid : String, get_student_name (some .malformed) sid = "Unknown") ∧
    (∀ sid : String, get_student_name (some (.lines [])) sid = "Unknown") ∧
    (∀ sid n d t : String, mark_attendance (some (.lines [])) sid n d t =
      .ok (some (.lines [[sid, n, d, t]]), true,
        "Attendance marked for " ++ n ++ " at " ++ t)) ∧
    (get_attendance_today (some (.lines [])) = .ok ⟨["Id", "Name", "Date", "Time"], []⟩) ∧
    (∀ sid n d t : String, mark_attendance (some .malformed) sid n d t =
      .error .parserError) ∧
    (get_attendance_today (some .malformed) = .error .parserError) := by
  exact ⟨fun _ => rfl, fun _ => rfl, fun _ _ _ _ => rfl, rfl, fun _ _ _ _ => rfl, rfl⟩

/-- Claim C7: `generate_frames` refuses to start when its preconditions
fail: without a trained model file it yields exactly the not-trained
report and never opens the camera (the model check precedes the camera
check); with a model but an unopenable video source it yields exactly the
camera report.  In both cases no frame is yielded. -/
theorem generate_frames_preconditions (env : CamEnv) (reg : Option FileContent) :
    (env.modelTrained = false →
      generate_frames env reg =
        ⟨[.err "Model not trained. Please train the model first."], false⟩) ∧
    (env.modelTrained = true → env.cameraOpens = false →
      generate_frames env reg = ⟨[.err "Could not open camera."], true⟩) := by
  constructor
  · intro h
    simp [generate_frames, h]
  · intro h1 h2
    simp [generate_frames, h1, h2]

/-- Witness for `generate_frames_preconditions` at concrete
environments. -/
theorem generate_frames_preconditions_witness :
    generate_frames ⟨false, false, []⟩ none =
      ⟨[.err "Model not trained. Please train the model first."], false⟩ ∧
    generate_frames ⟨true, false, []⟩ none = ⟨[.err "Could not open camera."], true⟩ :=
  ⟨(generate_frames_preconditions ⟨false, false, []⟩ none).1 rfl,
   (generate_frames_preconditions ⟨true, false, []⟩ none).2 rfl rfl⟩

lemma processFrame_go (reg : Option FileContent) :
    ∀ (faces : List FacePred) (acc : List String × List (Int × String)),
      List.foldl
        (fun acc p =>
          if p.conf < 50 then
            let name := get_student_name reg (toString p.id_)
            (acc.1 ++ [name ++ " (" ++ toString (pyTrunc p.conf) ++ ")"],
              acc.2 ++ [(p.id_, name)])
          else
            (acc.1 ++ ["Unknown"], acc.2))
        acc faces =
      (acc.1 ++ faces.map (faceLabel reg),
       acc.2 ++ (faces.filter (fun p => decide (p.conf < 50))).map
         (fun p => (p.id_, get_student_name reg (toString p.id_))))
  | [], acc => by simp
  | p :: ps, acc => by
    rw [List.foldl_cons, processFrame_go reg ps]
    by_cases h : p.conf < 50
    · simp [faceLabel, h, List.filter_cons, List.append_assoc]
    · simp [faceLabel, h, List.filter_cons, List.append_assoc]

/-- Claim C1: in the live-recognition face loop a predicted candidate is
added to the per-frame recognized list (resolved to its display name) if
and only if its confidence is strictly below 50; a prediction with
confidence 50 or more is labelled `"Unknown"` and added to no list. -/
theorem confidence_gate (reg : Option FileContent) (faces : List FacePred) :
    (processFrame reg faces).2 =
      (faces.filter (fun p => decide (p.conf < 50))).map
        (fun p => (p.id_, get_student_name reg (toString p.id_))) ∧
    (processFrame reg faces).1 = faces.map (faceLabel reg) ∧
    ∀ p : FacePred, (50 : ℚ) ≤ p.conf → faceLabel reg p = "Unknown" := by
  have h : processFrame reg faces =
      ([] ++ faces.map (faceLabel reg),
       [] ++ (faces.filter (fun p => decide (p.conf < 50))).map
         (fun p => (p.id_, get_student_name reg (toString p.id_)))) := by
    rw [processFrame]
    exact processFrame_go reg faces ([], [])
  refine ⟨?_, ?_, ?_⟩
  · rw [h]; simp
  · rw [h]; simp
  · intro p hp
    unfold faceLabel
    rw [if_neg (not_lt.mpr hp)]

/-- Witness for `confidence_gate`: confidence exactly 50 is labelled
unknown; confidence 49.999 is accepted and appears in the recognized
list. -/
theorem confidence_gate_witness :
    ((50 : ℚ) ≤ (50 : ℚ)) ∧
    faceLabel none ⟨8, 50⟩ = "Unknown" ∧
    (processFrame none [⟨7, 49999/1000⟩, ⟨8, 50⟩]).2 = [(7, "Unknown")] := by
  refine ⟨le_refl _, (confidence_gate none []).2.2 ⟨8, 50⟩ (le_refl _), ?_⟩
  rw [(confidence_gate none [⟨7, 49999/1000⟩, ⟨8, 50⟩]).1]
  have h1 : ((49999/1000 : ℚ) < 50) := by norm_num
  have h2 : ¬((50 : ℚ) < 50) := by norm_num
  simp only [List.filter_cons, List.filter_nil, h1, h2, decide_True, decide_False,
    if_true, if_false, List.map_cons, List.map_nil]
  rfl

lemma rosterAdd_nodup {r : List String} (h : r.Nodup) (x : String) :
    (rosterAdd r x).Nodup := by
  unfold rosterAdd
  split
  · exact h
  · next hx =>
    rw [List.nodup_append]
    exact ⟨h, List.nodup_singleton x,
      fun a ha hax => hx ((List.mem_singleton.mp hax) ▸ ha)⟩

lemma rosterAdd_mem {r : List String} {x y : String} :
    y ∈ rosterAdd r x ↔ y ∈ r ∨ y = x := by
  unfold rosterAdd
  split
  · next hx =>
    constructor
    · exact Or.inl
    · rintro (h | rfl)
      · exact h
      · exact hx
  · simp [List.mem_append]

lemma frameAdd_nodup : ∀ (ss : List (Int × String)) (r : List String),
    r.Nodup → (frameAdd r ss).Nodup
  | [], _, h => h
  | s :: ss, r, h => frameAdd_nodup ss (rosterAdd r (toString s.1)) (rosterAdd_nodup h _)

lemma frameAdd_mem : ∀ (ss : List (Int × String)) (r : List String) (y : String),
    y ∈ frameAdd r ss ↔ y ∈ r ∨ ∃ s ∈ ss, toString s.1 = y
  | [], r, y => by simp [frameAdd]
  | s :: ss, r, y => by
    show y ∈ frameAdd (rosterAdd r (toString s.1)) ss ↔ _
    rw [frameAdd_mem ss (rosterAdd r (toString s.1)) y]
    simp only [rosterAdd_mem, List.mem_cons]
    constructor
    · rintro ((h | rfl) | ⟨x, hx, hxy⟩)
      · exact Or.inl h
      · exact Or.inr ⟨s, Or.inl rfl, rfl⟩
      · exact Or.inr ⟨x, Or.inr hx, hxy⟩
    · rintro (h | ⟨x, (rfl | hx), hxy⟩)
      · exact Or.inl (Or.inl h)
      · exact Or.inl (Or.inr hxy.symm)
      · exact Or.inr ⟨x, hx, hxy⟩

lemma sessionFold_nodup : ∀ (frames : List (List (Int × String))) (r : List String),
    r.Nodup → (List.foldl frameAdd r frames).Nodup
  | [], _, h => h
  | fr :: frames, r, h => sessionFold_nodup frames (frameAdd r fr) (frameAdd_nodup fr r h)

lemma sessionFold_mem : ∀ (frames : List (List (Int × String))) (r : List String) (y : String),
    y ∈ List.foldl frameAdd r frames ↔ y ∈ r ∨ ∃ fr ∈ frames, ∃ s ∈ fr, toString s.1 = y
  | [], r, y => by simp
  | fr :: frames, r, y => by
    rw [List.foldl_cons, sessionFold_mem frames (frameAdd r fr) y]
    simp only [frameAdd_mem, List.mem_cons]
    constructor
    · rintro ((h | hs) | ⟨f, hf, hs⟩)
      · exact Or.inl h
      · exact Or.inr ⟨fr, Or.inl rfl, hs⟩
      · exact Or.inr ⟨f, Or.inr hf, hs⟩
    · rintro (h | ⟨f, (rfl | hf), hs⟩)
      · exact Or.inl (Or.inl h)
      · exact Or.inl (Or.inr hs)
      · exact Or.inr ⟨f, hf, hs⟩

/-- Claim C2: the session roster has set semantics — it is duplicate-free,
it contains an id exactly when some frame recognized that id, and an id
recognized in one or more frames is counted exactly once. -/
theorem sessionRoster_set_semantics (frames : List (List (Int × String))) (sid : String) :
    (sessionRoster frames).Nodup ∧
    (sid ∈ sessionRoster frames ↔ ∃ fr ∈ frames, ∃ s ∈ fr, toString s.1 = sid) ∧
    ((∃ fr ∈ frames, ∃ s ∈ fr, toString s.1 = sid) →
      (sessionRoster frames).count sid = 1) := by
  have hnd : (sessionRoster frames).Nodup := sessionFold_nodup frames [] List.nodup_nil
  have hmem : sid ∈ sessionRoster frames ↔ ∃ fr ∈ frames, ∃ s ∈ fr, toString s.1 = sid := by
    have h := sessionFold_mem frames [] sid
    simpa [sessionRoster] using h
  exact ⟨hnd, hmem, fun h => List.count_eq_one_of_mem hnd (hmem.mpr h)⟩

/-- Witness for `sessionRoster_set_semantics`: one id recognized in two of
three frames ends up in the roster exactly once. -/
theorem sessionRoster_set_semantics_witness :
    (∃ fr ∈ [[((7 : Int), "Alice")], [((7 : Int), "Alice")], []],
      ∃ s ∈ fr, toString s.1 = "7") ∧
    (sessionRoster [[((7 : Int), "Alice")], [((7 : Int), "Alice")], []]).count "7" = 1 := by
  refine ⟨by decide, (sessionRoster_set_semantics _ "7").2.2 (by decide)⟩

lemma train_model_no_samples {dir : List SampleFile}
    (h : dir.filter (fun f => jpgSuffix.isSuffixOf f.fname) = []) :
    train_model dir = ⟨false, "No training images found.", []⟩ := by
  unfold train_model
  rw [h]
  rfl

lemma train_model_no_valid {dir : List SampleFile}
    (h : dir.filter (fun f => jpgSuffix.isSuffixOf f.fname) ≠ [])
    (hnone : ∀ f ∈ dir, jpgSuffix.isSuffixOf f.fname → sampleLabel f = none) :
    train_model dir = ⟨false, "No valid faces found to train.", []⟩ := by
  have hpairs : (dir.filter (fun f => jpgSuffix.isSuffixOf f.fname)).filterMap
      (fun f => (sampleLabel f).map (fun i => (f.fname, i))) = [] := by
    rw [List.filterMap_eq_nil_iff]
    intro f hf
    rw [hnone f (List.mem_filter.mp hf).1 (List.mem_filter.mp hf).2]
    rfl
  simp only [train_model]
  rw [hpairs, if_neg (fun hc => h (List.isEmpty_iff.mp hc))]
  rfl

/-- Claim C6: training is atomic on failure — with no `.jpg` sample it
returns the no-samples error, and with `.jpg` samples but none yielding a
valid labelled face it returns the no-valid-samples error; in both cases
the saved model (if any) is left exactly as it was. -/
theorem train_model_failure_atomic (dir : List SampleFile)
    (model : Option (List (List Char × Int))) :
    (dir.filter (fun f => jpgSuffix.isSuffixOf f.fname) = [] →
      train_model_fs dir model = (⟨false, "No training images found.", []⟩, model)) ∧
    (dir.filter (fun f => jpgSuffix.isSuffixOf f.fname) ≠ [] →
      (∀ f ∈ dir, jpgSuffix.isSuffixOf f.fname → sampleLabel f = none) →
      train_model_fs dir model = (⟨false, "No valid faces found to train.", []⟩, model)) := by
  constructor
  · intro h
    unfold train_model_fs
    rw [train_model_no_samples h]
    rfl
  · intro h hnone
    unfold train_model_fs
    rw [train_model_no_valid h hnone]
    rfl

/-- Witness for `train_model_failure_atomic`: a directory with no jpg, and
one whose only jpg has too few filename parts, both leave a previous model
in place. -/
theorem train_model_failure_atomic_witness :
    ([⟨"readme.txt".data, true⟩] : List SampleFile).filter
      (fun f => jpgSuffix.isSuffixOf f.fname) = [] ∧
    train_model_fs [⟨"readme.txt".data, true⟩] (some [(['m'], 3)]) =
      (⟨false, "No training images found.", []⟩, some [(['m'], 3)]) ∧
    train_model_fs [⟨"a.jpg".data, true⟩] (some [(['m'], 3)]) =
      (⟨false, "No valid faces found to train.", []⟩, some [(['m'], 3)]) := by
  refine ⟨by decide, (train_model_failure_atomic _ _).1 (by decide),
    (train_model_failure_atomic _ _).2 (by decide) (by decide)⟩

lemma dotSplit_ne_nil (l : List Char) : dotSplit l ≠ [] := by
  induction l with
  | nil => simp [dotSplit]
  | cons c cs ih =>
    rw [dotSplit]
    split
    · simp
    · split
      · simp
      · simp

lemma dotSplit_append_dot (a b : List Char) (ha : '.' ∉ a) :
    dotSplit (a ++ '.' :: b) = a :: dotSplit b := by
  induction a with
  | nil => simp [dotSplit]
  | cons c cs ih =>
    have hc : c ≠ '.' := fun h => ha (by rw [h]; exact List.mem_cons_self _ _)
    have hcs : '.' ∉ cs := fun h => ha (List.mem_cons_of_mem _ h)
    rw [List.cons_append, dotSplit, if_neg hc, ih hcs]

lemma dotSplit_head (l : List Char) : (dotSplit l).headD [] = firstSeg l := by
  induction l with
  | nil => rfl
  | cons c cs ih =>
    rw [dotSplit, firstSeg]
    by_cases h : c = '.'
    · rw [if_pos h, if_pos h]
      rfl
    · rw [if_neg h, if_neg h]
      cases hcs : dotSplit cs with
      | nil => exact absurd hcs (dotSplit_ne_nil cs)
      | cons p ps =>
        rw [hcs] at ih
        simp only [List.headD_cons] at ih ⊢
        rw [ih]

lemma firstSeg_append_dot (a b : List Char) : firstSeg (a ++ '.' :: b) = firstSeg a := by
  induction a with
  | nil => simp [firstSeg]
  | cons c cs ih =>
    rw [List.cons_append, firstSeg, firstSeg]
    by_cases h : c = '.'
    · rw [if_pos h, if_pos h]
    · rw [if_neg h, if_neg h, ih]

lemma dotSplit_append_dot_length (a b : List Char) :
    2 ≤ (dotSplit (a ++ '.' :: b)).length := by
  induction a with
  | nil =>
    rw [List.nil_append, dotSplit, if_pos rfl]
    have hpos : 0 < (dotSplit b).length := List.length_pos.mpr (dotSplit_ne_nil b)
    simp only [List.length_cons]
    omega
  | cons c cs ih =>
    rw [List.cons_append, dotSplit]
    by_cases h : c = '.'
    · rw [if_pos h]
      have hpos : 0 < (dotSplit (cs ++ '.' :: b)).length :=
        List.length_pos.mpr (dotSplit_ne_nil _)
      simp only [List.length_cons]
      omega
    · rw [if_neg h]
      cases hcs : dotSplit (cs ++ '.' :: b) with
      | nil => exact absurd hcs (dotSplit_ne_nil _)
      | cons p ps =>
        rw [hcs] at ih
        simpa using ih

lemma sampleLabel_true (l : List Char) :
    sampleLabel ⟨l, true⟩ =
      if (dotSplit l).length ≥ 3 then pyIntChars ((dotSplit l).getD 1 []) else none := rfl

lemma getD_zero_headD (L : List (List Char)) : L.getD 0 [] = L.headD [] := by
  cases L <;> rfl

lemma sampleLabel_dotfree (name sid : String) (k : Nat)
    (hn : '.' ∉ name.data) (hs : '.' ∉ sid.data) :
    sampleLabel ⟨sampleFilename name sid k, true⟩ = pyIntChars sid.data := by
  rw [sampleLabel_true]
  have hassoc : sampleFilename name sid k =
      name.data ++ '.' :: (sid.data ++ '.' :: ((Nat.repr k).data ++ jpgSuffix)) := by
    unfold sampleFilename
    simp [List.append_assoc, List.cons_append]
  rw [hassoc, dotSplit_append_dot _ _ hn, dotSplit_append_dot _ _ hs]
  have hpos : 0 < (dotSplit ((Nat.repr k).data ++ jpgSuffix)).length :=
    List.length_pos.mpr (dotSplit_ne_nil _)
  rw [if_pos (by simp only [List.length_cons]; omega)]
  rfl

lemma sampleLabel_dotted_name (frag rest sid : String) (k : Nat)
    (hf : '.' ∉ frag.data) :
    sampleLabel ⟨sampleFilename (frag ++ "." ++ rest) sid k, true⟩ =
      pyIntChars (firstSeg rest.data) := by
  rw [sampleLabel_true]
  have hassoc : sampleFilename (frag ++ "." ++ rest) sid k =
      frag.data ++ '.' :: (rest.data ++ '.' :: (sid.data ++ '.' :: ((Nat.repr k).data ++ jpgSuffix))) := by
    unfold sampleFilename
    simp [String.data_append, List.append_assoc, List.cons_append]
  rw [hassoc, dotSplit_append_dot _ _ hf]
  have hlen := dotSplit_append_dot_length rest.data
    (sid.data ++ '.' :: ((Nat.repr k).data ++ jpgSuffix))
  rw [if_pos (by simp only [List.length_cons]; omega)]
  rw [List.getD_cons_succ, getD_zero_headD, dotSplit_head, firstSeg_append_dot]

/-- Claim C10 as amended: every trained sample's label comes from its
filename via the split-on-dot rule (a `.jpg` is trained with label `i`
only if its filename is dot-splittable into at least three parts whose
second parses to `i`).  For a captured sample whose name and id are
dot-free the label is the parse of the registered id, so a non-integer id
is skipped; but when the name contains a dot the label is parsed from the
name's fragment after its first dot, so such a sample contributes whenever
that fragment is an integer literal, even for a non-integer registered
id. -/
theorem train_label_derivation :
    (∀ (dir : List SampleFile) (p : List Char × Int),
      p ∈ (train_model dir).trainedPairs →
        ∃ g ∈ dir, g.fname = p.1 ∧ sampleLabel g = some p.2) ∧
    (∀ (name sid : String) (k : Nat), '.' ∉ name.data → '.' ∉ sid.data →
      sampleLabel ⟨sampleFilename name sid k, true⟩ = pyIntChars sid.data) ∧
    (∀ (frag rest sid : String) (k : Nat), '.' ∉ frag.data →
      sampleLabel ⟨sampleFilename (frag ++ "." ++ rest) sid k, true⟩ =
        pyIntChars (firstSeg rest.data)) := by
  refine ⟨?_, sampleLabel_dotfree, sampleLabel_dotted_name⟩
  intro dir p hp
  simp only [train_model] at hp
  split at hp
  · simp at hp
  · split at hp
    · simp at hp
    · obtain ⟨f, hf, hmap⟩ := List.mem_filterMap.mp hp
      refine ⟨f, (List.mem_filter.mp hf).1, ?_⟩
      cases hl : sampleLabel f with
      | none => rw [hl] at hmap; simp at hmap
      | some i =>
        rw [hl] at hmap
        simp only [Option.map_some', Option.some.injEq] at hmap
        rw [← hmap]
        exact ⟨rfl, rfl⟩

/-- Witness for `train_label_derivation` at concrete names and ids. -/
theorem train_label_derivation_witness :
    ('.' ∉ "Alice".data) ∧ ('.' ∉ "abc".data) ∧
    sampleLabel ⟨sampleFilename "Alice" "abc" 1, true⟩ = pyIntChars "abc".data ∧
    ('.' ∉ "x".data) ∧
    sampleLabel ⟨sampleFilename ("x" ++ "." ++ "7") "abc" 1, true⟩ =
      pyIntChars (firstSeg "7".data) := by
  exact ⟨by decide, by decide,
    train_label_derivation.2.1 "Alice" "abc" 1 (by decide) (by decide),
    by decide, train_label_derivation.2.2 "x" "7" "abc" 1 (by decide)⟩

/-- Claim C10 counterexample: a sample captured for the student with name
`"x.7"` and non-integer id `"abc"` is trained anyway — and under label 7,
parsed out of the name — because the filename's second dot-part is the
name fragment `7`, not the id. -/
theorem dotted_name_sample_contributes :
    (train_model [⟨sampleFilename "x.7" "abc" 1, true⟩]).ok = true ∧
    (train_model [⟨sampleFilename "x.7" "abc" 1, true⟩]).trainedPairs =
      [(sampleFilename "x.7" "abc" 1, 7)] := ⟨rfl, rfl⟩

end FaceApp
